import Mathlib

/-!
Verification of the fastrnns model-definition factory
(`rnns/fastrnns/factory.py`).

Tensors are shallowly embedded as finitely branching trees of integer
scalars: `Tensor.dim ts` is a tensor whose leading dimension has the
entries `ts`.  This makes the tensor operations the factory uses
(`unbind(0)`, `torch.stack`, `t[i]`, `unsqueeze(0)`) ordinary list
operations.  Scalar values are integers: the external numerics runtime is
modelled at the level of data flow, which is what the factory's own code
manipulates.

The global torch RNG is modelled as an explicit `Nat` state threaded
through the synthesis functions; `torch.manual_seed` resets it and
`torch.randn` draws successive values from it.  Distinct states yield
distinct draws, and a draw advances the state, which is all the
reproducibility claims depend on.
-/

inductive Tensor where
  | scalar (v : Int)
  | dim (ts : List Tensor)
deriving Repr, Inhabited

/-- The shape of a tensor tree: length of the leading dimension followed by
the shape of its first entry (an empty dimension reports `[0]`). -/
def Tensor.shape : Tensor → List Nat
  | .scalar _ => []
  | .dim [] => [0]
  | .dim (t :: ts) => (ts.length + 1) :: t.shape

/-- `input.unbind(0)`: the list of slices along the leading dimension. -/
def unbind : Tensor → List Tensor
  | .scalar _ => []
  | .dim ts => ts

/-- `torch.stack`: a list of equally shaped tensors becomes the entries of a
new leading dimension. -/
def stackT (ts : List Tensor) : Tensor := .dim ts

/-- `t[i]`: indexing into the leading dimension. -/
def indexT (t : Tensor) (i : Nat) : Tensor :=
  match t with
  | .scalar _ => default
  | .dim ts => ts.getD i default

/-- `t.unsqueeze(0)`: insert a leading dimension of extent 1. -/
def unsqueeze (t : Tensor) : Tensor := .dim [t]

/-- `t.size(0)`: extent of the leading dimension. -/
def size0 : Tensor → Nat
  | .scalar _ => 0
  | .dim ts => ts.length

/-- Value of a scalar leaf. -/
def scalarVal : Tensor → Int
  | .scalar v => v
  | .dim _ => 0

/-- The entries of the leading dimension as a list. -/
def Tensor.rows : Tensor → List Tensor
  | .scalar _ => []
  | .dim ts => ts

/-- View a rank-1 tensor as a list of integers. -/
def toVec (t : Tensor) : List Int := t.rows.map scalarVal

/-- View a rank-2 tensor as a list of rows of integers. -/
def toMat (t : Tensor) : List (List Int) := t.rows.map toVec

/-- Build a rank-1 tensor from a list of integers. -/
def ofVec (v : List Int) : Tensor := .dim (v.map .scalar)

/-- Build a rank-2 tensor from a list of rows. -/
def ofMat (m : List (List Int)) : Tensor := .dim (m.map ofVec)

/-- Dot product of two integer lists. -/
def dotI (a b : List Int) : Int := (List.zipWith (· * ·) a b).sum

/-- `a.mm(b)` on rank-2 tensors (matrix product). -/
def matmul2 (a b : Tensor) : Tensor :=
  ofMat ((toMat a).map fun r => (toMat b).transpose.map fun c => dotI r c)

/-- `a.t()` on a rank-2 tensor (matrix transpose). -/
def transposeT (a : Tensor) : Tensor := ofMat (toMat a).transpose

/-- `torch.matmul` of a rank-3 tensor with a rank-2 tensor: the external
runtime batches the matrix product over the leading dimension. -/
def matmul3 (a b : Tensor) : Tensor :=
  stackT ((unbind a).map fun t => matmul2 t b)

/-- Pointwise binary operation on equally shaped rank-2 tensors. -/
def map2M (f : Int → Int → Int) (a b : Tensor) : Tensor :=
  ofMat (List.zipWith (fun r1 r2 => List.zipWith f r1 r2) (toMat a) (toMat b))

/-- Addition of a rank-1 bias to every row of a rank-2 tensor
(broadcasting as in `gates + b_ih`). -/
def addBias (a bias : Tensor) : Tensor :=
  ofMat ((toMat a).map fun r => List.zipWith (· + ·) r (toVec bias))

/-- Pointwise unary operation on a rank-2 tensor. -/
def mapM1 (f : Int → Int) (a : Tensor) : Tensor :=
  ofMat ((toMat a).map fun r => r.map f)

/-- `gates.chunk(4, 1)`: split the columns of a rank-2 tensor into four
equal contiguous blocks; `h` is the block width. -/
def chunkCol4 (a : Tensor) (h : Nat) : Tensor × Tensor × Tensor × Tensor :=
  let m := toMat a
  (ofMat (m.map fun r => (r.drop 0).take h),
   ofMat (m.map fun r => (r.drop h).take h),
   ofMat (m.map fun r => (r.drop (2 * h)).take h),
   ofMat (m.map fun r => (r.drop (3 * h)).take h))

/-- Modelled from the spec: the pointwise sigmoid gating nonlinearity is
delegated to the external numerics library; over the integer data model it
is an unspecified pointwise map, taken here as a concrete one so that the
data flow stays executable. -/
def sigmoidI (v : Int) : Int := v

/-- Modelled from the spec: the pointwise tanh nonlinearity delegated to
the external numerics library, modelled as a concrete pointwise map. -/
def tanhI (v : Int) : Int := v

/-- Modelled from the spec: the missing `cells.lstm_cell` step function —
"compute gate pre-activations by affine combinations of `x_t` and hidden,
apply the memory-cell update (sigmoid/tanh gating), and produce new
(hidden, cell)".  `hiddenSize` is recovered from `b_ih`, whose extent is
four times the hidden size. -/
def lstm_cell (x : Tensor) (hc : Tensor × Tensor)
    (wih whh bih bhh : Tensor) : Tensor × Tensor :=
  let hsize := size0 bih / 4
  let gates := addBias (addBias (map2M (· + ·) (matmul2 x (transposeT wih))
    (matmul2 hc.1 (transposeT whh))) bih) bhh
  let c4 := chunkCol4 gates hsize
  let ingate := mapM1 sigmoidI c4.1
  let forgetgate := mapM1 sigmoidI c4.2.1
  let cellgate := mapM1 tanhI c4.2.2.1
  let outgate := mapM1 sigmoidI c4.2.2.2
  let cy := map2M (· + ·) (map2M (· * ·) forgetgate hc.2)
    (map2M (· * ·) ingate cellgate)
  let hy := map2M (· * ·) outgate (mapM1 tanhI cy)
  (hy, cy)

/-- Modelled from the spec: the missing `cells.premul_lstm_cell` step
function — identical gating, but the input-to-hidden projection
`x.mm(wih.t())` arrives precomputed as `igates`. -/
def premul_lstm_cell (igates : Tensor) (hc : Tensor × Tensor)
    (whh bih bhh : Tensor) : Tensor × Tensor :=
  let hsize := size0 bih / 4
  let gates := addBias (addBias (map2M (· + ·) igates
    (matmul2 hc.1 (transposeT whh))) bih) bhh
  let c4 := chunkCol4 gates hsize
  let ingate := mapM1 sigmoidI c4.1
  let forgetgate := mapM1 sigmoidI c4.2.1
  let cellgate := mapM1 tanhI c4.2.2.1
  let outgate := mapM1 sigmoidI c4.2.2.2
  let cy := map2M (· + ·) (map2M (· * ·) forgetgate hc.2)
    (map2M (· * ·) ingate cellgate)
  let hy := map2M (· * ·) outgate (mapM1 tanhI cy)
  (hy, cy)

/-- Modelled from the spec: the missing `cells.flat_lstm_cell` step
function — the same update as `lstm_cell` with the state passed as two
separate positional tensors. -/
def flat_lstm_cell (x hx cx wih whh bih bhh : Tensor) : Tensor × Tensor :=
  lstm_cell x (hx, cx) wih whh bih bhh

/-- The type of a step cell as consumed by `lstm_factory`:
`cell(x, (hy, cy), wih, whh, bih, bhh) -> (hy, cy)`. -/
abbrev CellFn := Tensor → Tensor × Tensor → Tensor → Tensor → Tensor → Tensor → Tensor × Tensor

/-- The type of a premultiplied step cell as consumed by
`lstm_factory_premul`: `cell(igates, (hy, cy), whh, bih, bhh)`. -/
abbrev PremulCellFn := Tensor → Tensor × Tensor → Tensor → Tensor → Tensor → Tensor × Tensor

/-- The type of a flat step cell as consumed by `lstm_factory_simple`:
`cell(x, hy, cy, wih, whh, bih, bhh)`. -/
abbrev FlatCellFn := Tensor → Tensor → Tensor → Tensor → Tensor → Tensor → Tensor → Tensor × Tensor

/-- Modelled from the spec: `torch.jit.script` compiles a callable ahead of
time and returns a semantically identical callable. -/
def jitScript {α : Type} (f : α) : α := f

/-- The time-step loop shared verbatim by `lstm_factory` and each layer of
`lstm_factory_multilayer`:
`for seq_idx in range(len(inputs)): hy, cy = cell(...); outputs += [hy]`.
Returns the accumulated outputs and the final `(hy, cy)`. -/
def lstmLoop (cell : CellFn) (inputs : List Tensor) (hy cy : Tensor)
    (wih whh bih bhh : Tensor) : List Tensor × Tensor × Tensor :=
  match inputs with
  | [] => ([], hy, cy)
  | x :: rest =>
    let s := cell x (hy, cy) wih whh bih bhh
    let r := lstmLoop cell rest s.1 s.2 wih whh bih bhh
    (s.1 :: r.1, r.2)

/-- `lstm_factory(cell, script)`: the standard single-layer forward.
`dynamic_rnn(input, hidden, wih, whh, bih, bhh)` unbinds the input along
time, starts from `hx[0], cx[0]`, folds the cell over the steps, and
returns the stacked per-step hidden states together with the unsqueezed
final state. -/
def lstm_factory (cell : CellFn) (script : Bool) :
    Tensor → Tensor × Tensor → Tensor → Tensor → Tensor → Tensor →
    Tensor × (Tensor × Tensor) :=
  let cell := if script then jitScript cell else cell
  let dynamic_rnn := fun (input : Tensor) (hidden : Tensor × Tensor)
      (wih whh bih bhh : Tensor) =>
    let hx := hidden.1
    let cx := hidden.2
    let r := lstmLoop cell (unbind input) (indexT hx 0) (indexT cx 0)
      wih whh bih bhh
    (stackT r.1, (unsqueeze r.2.1, unsqueeze r.2.2))
  if script then jitScript dynamic_rnn else dynamic_rnn

/-- The time-step loop of `lstm_factory_premul`, whose cell does not take
`wih` (the input projection was hoisted out of the loop). -/
def premulLoop (pcell : PremulCellFn) (inputs : List Tensor) (hy cy : Tensor)
    (whh bih bhh : Tensor) : List Tensor × Tensor × Tensor :=
  match inputs with
  | [] => ([], hy, cy)
  | x :: rest =>
    let s := pcell x (hy, cy) whh bih bhh
    let r := premulLoop pcell rest s.1 s.2 whh bih bhh
    (s.1 :: r.1, r.2)

/-- `lstm_factory_premul(premul_cell, script)`: premultiplies the whole
input sequence by `wih.t()` once, then folds the premultiplied cell. -/
def lstm_factory_premul (premul_cell : PremulCellFn) (script : Bool) :
    Tensor → Tensor × Tensor → Tensor → Tensor → Tensor → Tensor →
    Tensor × (Tensor × Tensor) :=
  let premul_cell := if script then jitScript premul_cell else premul_cell
  let dynamic_rnn := fun (input : Tensor) (hidden : Tensor × Tensor)
      (wih whh bih bhh : Tensor) =>
    let hx := hidden.1
    let cx := hidden.2
    let r := premulLoop premul_cell (unbind (matmul3 input (transposeT wih)))
      (indexT hx 0) (indexT cx 0) whh bih bhh
    (stackT r.1, (unsqueeze r.2.1, unsqueeze r.2.2))
  if script then jitScript dynamic_rnn else dynamic_rnn

/-- The time-step loop of `lstm_factory_simple`: flat state arguments and
no output accumulation. -/
def simpleLoop (fcell : FlatCellFn) (inputs : List Tensor) (hy cy : Tensor)
    (wih whh bih bhh : Tensor) : Tensor × Tensor :=
  match inputs with
  | [] => (hy, cy)
  | x :: rest =>
    let s := fcell x hy cy wih whh bih bhh
    simpleLoop fcell rest s.1 s.2 wih whh bih bhh

/-- `lstm_factory_simple(cell, script)`: flat inputs, no tuples, returning
only the final `(hy, cy)`. -/
def lstm_factory_simple (cell : FlatCellFn) (script : Bool) :
    Tensor → Tensor → Tensor → Tensor → Tensor → Tensor → Tensor →
    Tensor × Tensor :=
  let cell := if script then jitScript cell else cell
  let dynamic_rnn := fun (input hx cx wih whh bih bhh : Tensor) =>
    simpleLoop cell (unbind input) hx cx wih whh bih bhh
  if script then jitScript dynamic_rnn else dynamic_rnn

/-- The layer loop of `lstm_factory_multilayer`:
`for layer in range(hx.size(0)):` starting at index `layer` with `fuel`
layers left, carrying the current `inputs` list and the scoped `hy, cy`.
Each iteration re-seeds the state from `hx[layer], cx[layer]`, slices the
flat parameter list at `base_idx = layer * 4`, runs the shared time-step
loop, and feeds its outputs to the next layer as inputs. -/
def layersLoop (cell : CellFn) (hx cx : Tensor) (params : List Tensor)
    (inputs : List Tensor) (hy cy : Tensor) (layer : Nat) :
    Nat → List Tensor × Tensor × Tensor
  | 0 => (inputs, hy, cy)
  | fuel + 1 =>
    let base_idx := layer * 4
    let wih := params.getD base_idx default
    let whh := params.getD (base_idx + 1) default
    let bih := params.getD (base_idx + 2) default
    let bhh := params.getD (base_idx + 3) default
    let r := lstmLoop cell inputs (indexT hx layer) (indexT cx layer)
      wih whh bih bhh
    layersLoop cell hx cx params r.1 r.2.1 r.2.2 (layer + 1) fuel

/-- `lstm_factory_multilayer(cell, script)`: iterates the shared time-step
loop over `hx.size(0)` layers, slicing the flat parameter list with stride
4, and returns the stacked outputs of the last layer with the unsqueezed
final state. -/
def lstm_factory_multilayer (cell : CellFn) (script : Bool) :
    Tensor → Tensor × Tensor → List Tensor → Tensor × (Tensor × Tensor) :=
  let cell := if script then jitScript cell else cell
  let dynamic_rnn := fun (input : Tensor) (hidden : Tensor × Tensor)
      (params : List Tensor) =>
    let hx := hidden.1
    let cx := hidden.2
    let r := layersLoop cell hx cx params (unbind input) hidden.1 hidden.2
      0 (size0 hx)
    (stackT r.1, (unsqueeze r.2.1, unsqueeze r.2.2))
  if script then jitScript dynamic_rnn else dynamic_rnn

/-! ## The global RNG and tensor synthesis -/

/-- The state of the global torch RNG, modelled as a counter. -/
abbrev RNG := Nat

/-- `torch.manual_seed(n)`: the global RNG state becomes a function of `n`
alone, independent of the incoming state. -/
def manual_seed (n : Nat) : RNG → RNG := fun _ => n

/-- One draw of `torch.randn`-style synthesis at the scalar level: the
value is determined by the state and the state advances. -/
def drawScalar (s : RNG) : Tensor × RNG := (.scalar (Int.ofNat s), s + 1)

/-- Draw `n` successive tensors with a given generator, threading the RNG
state; the row builder behind `torch.randn`. -/
def buildRow (gen : RNG → Tensor × RNG) : Nat → RNG → List Tensor × RNG
  | 0, s => ([], s)
  | n + 1, s =>
    let t := gen s
    let r := buildRow gen n t.2
    (t.1 :: r.1, r.2)

/-- `torch.randn(shape)`: synthesize a tensor of the requested shape by
drawing scalars from the global RNG in row-major order. -/
def randnT : List Nat → RNG → Tensor × RNG
  | [], s => drawScalar s
  | d :: rest, s =>
    let r := buildRow (randnT rest) d s
    (.dim r.1, r.2)

/-- `torch.randn_like(t)`: a fresh draw with the shape of `t`. -/
def randn_like (t : Tensor) (s : RNG) : Tensor × RNG := randnT t.shape s

/-! ## `lstm_inputs` and the parameter synthesis of `torch.nn.LSTM` -/

/-- The keyword configuration of `lstm_inputs` (the `device` and
`return_module` keywords are orthogonal to the claims: the creators under
study all pass `return_module=False`, and device placement is the external
runtime's concern). -/
structure LstmConfig where
  seqLength : Nat := 100
  numLayers : Nat := 1
  inputSize : Nat := 512
  hiddenSize : Nat := 512
  miniBatch : Nat := 64
  seed : Option Nat := none
deriving Repr

/-- Modelled from the spec: `torch.nn.LSTM.__init__` (external
collaborator) draws one parameter group per layer from the global RNG, in
the `all_weights` format documented in the source:
`wih, whh, bih, bhh = lstm.all_weights[layer]`, with
`wih : (4*hiddenSize, layerInputSize)`, `whh : (4*hiddenSize, hiddenSize)`
and rank-1 biases of extent `4*hiddenSize`. -/
def layerWeights (layerInput hiddenSize : Nat) (s : RNG) :
    List Tensor × RNG :=
  let r1 := randnT [4 * hiddenSize, layerInput] s
  let r2 := randnT [4 * hiddenSize, hiddenSize] r1.2
  let r3 := randnT [4 * hiddenSize] r2.2
  let r4 := randnT [4 * hiddenSize] r3.2
  ([r1.1, r2.1, r3.1, r4.1], r4.2)

/-- Modelled from the spec: the `all_weights` list of `torch.nn.LSTM`,
one four-tensor group per layer; layer 0 consumes `inputSize` features and
deeper layers consume `hiddenSize`.  `i` is the index of the next layer to
synthesize and the second argument counts the layers left. -/
def lstmAllWeights (inputSize hiddenSize : Nat) (i : Nat) :
    Nat → RNG → List (List Tensor) × RNG
  | 0, s => ([], s)
  | n + 1, s =>
    let layerIn := if i = 0 then inputSize else hiddenSize
    let lw := layerWeights layerIn hiddenSize s
    let rest := lstmAllWeights inputSize hiddenSize (i + 1) n lw.2
    (lw.1 :: rest.1, rest.2)

/-- The tuple returned by `lstm_inputs(..., return_module=False)`:
`x, (hx, cx), all_weights`. -/
structure LstmInputs where
  x : Tensor
  hx : Tensor
  cx : Tensor
  all_weights : List (List Tensor)
deriving Repr

/-- `lstm_inputs`: seeds the global RNG when a seed is given (`is not
None`, so seed 0 seeds too), then synthesizes `x`, `hx`, `cx` and the LSTM
module parameters in that order. -/
def lstm_inputs (cfg : LstmConfig) (s0 : RNG) : LstmInputs × RNG :=
  let s := match cfg.seed with
    | some n => manual_seed n s0
    | none => s0
  let rx := randnT [cfg.seqLength, cfg.miniBatch, cfg.inputSize] s
  let rh := randnT [cfg.numLayers, cfg.miniBatch, cfg.hiddenSize] rx.2
  let rc := randnT [cfg.numLayers, cfg.miniBatch, cfg.hiddenSize] rh.2
  let rw := lstmAllWeights cfg.inputSize cfg.hiddenSize 0 cfg.numLayers rc.2
  (⟨rx.1, rh.1, rc.1, rw.1⟩, rw.2)

/-- The exception vocabulary the specification assigns to the factory. -/
inductive FactoryError where
  | invalidConfiguration
  | deviceUnavailable
  | compilationError
deriving Repr

/-- `lstm_inputs` in an exception-aware view: the source contains no
validation and no raise statement, so the computation always returns
normally. -/
def lstm_inputs_checked (cfg : LstmConfig) (s0 : RNG) :
    Except FactoryError (LstmInputs × RNG) :=
  Except.ok (lstm_inputs cfg s0)

/-! ## Backward setup and the backward hook -/

/-- Python truthiness of the optional seed: `if seed:` is false both for
`None` and for `0`. -/
def seedTruthy : Option Nat → Bool
  | none => false
  | some n => n != 0

/-- `simple_backward_setup(output, seed)`: seeds the RNG only when `seed`
is truthy (so seed 0 does not seed), then draws a gradient seed with the
shape of `output` and returns `(output, grad_output)`. -/
def simple_backward_setup (output : Tensor) (seed : Option Nat)
    (s0 : RNG) : (Tensor × Tensor) × RNG :=
  let s := if seedTruthy seed then manual_seed (seed.getD 0) s0 else s0
  let rg := randn_like output s
  ((output, rg.1), rg.2)

/-- `lstm_backward_setup(lstm_outputs, seed)`: unpacks the forward output
pair as `hx, _`, keeping the first (hidden-state) component and dropping
the second, then delegates to `simple_backward_setup`. -/
def lstm_backward_setup {β : Type} (lstm_outputs : Tensor × β)
    (seed : Option Nat) (s0 : RNG) : (Tensor × Tensor) × RNG :=
  simple_backward_setup lstm_outputs.1 seed s0

/-- `simple_backward(output, grad_output)` calls the external autodiff
runtime (`output.backward(grad_output)`); its gradient effects are
modelled separately by `argTensors`. -/
def simple_backward (output grad_output : Tensor) : Unit := ()

/-! ## The model-definition bundles -/

/-- One positional argument of a forward callable: the creators pass plain
tensors, the `(hx, cx)` pair, or a flat list of parameter tensors. -/
inductive Arg where
  | t (x : Tensor)
  | pair (hc : Tensor × Tensor)
  | list (ts : List Tensor)
deriving Repr

/-- The tensors occurring in an argument list; used to model which leaf
tensors the forward computation reaches. -/
def argTensors : List Arg → List Tensor
  | [] => []
  | .t x :: r => x :: argTensors r
  | .pair hc :: r => hc.1 :: hc.2 :: argTensors r
  | .list ts :: r => ts ++ argTensors r

/-- `flatten_list`: list[list[T]] -> list[T]. -/
def flatten_list {α : Type} (lst : List (List α)) : List α :=
  lst.foldl (fun result inner => result ++ inner) []

/-- The `ModelDef` namedtuple, polymorphic in the forward output type.
`forward` models Python's `forward(*inputs)` star-application: it accepts
an argument list and returns `none` when the list does not match the
callable's positional signature. -/
structure ModelDef (ω : Type) where
  inputs : List Arg
  params : List Tensor
  forward : List Arg → Option ω
  backward_setup : ω → Option Nat → RNG → (Tensor × Tensor) × RNG
  backward : Tensor → Tensor → Unit

/-- `lstm_creator(script, **kwargs)`: unpacks `lstm_inputs`, passes
`[input, hidden] + params[0]` as the forward's six positional arguments,
and exposes the flattened `all_weights` as `params`. -/
def lstm_creator (script : Bool) (cfg : LstmConfig) (s0 : RNG) :
    ModelDef (Tensor × (Tensor × Tensor)) :=
  let r := lstm_inputs cfg s0
  let input := r.1.x
  let hidden := (r.1.hx, r.1.cx)
  let params := r.1.all_weights
  let p0 := params.getD 0 []
  let rnn := lstm_factory lstm_cell script
  { inputs := [.t input, .pair hidden] ++ p0.map .t,
    params := flatten_list params,
    forward := fun args =>
      match args with
      | [.t i, .pair h, .t a, .t b, .t c, .t d] => some (rnn i h a b c d)
      | _ => none,
    backward_setup := lstm_backward_setup,
    backward := simple_backward }

/-- `lstm_premul_creator(script, **kwargs)`: same wiring as
`lstm_creator` but with the premultiplied forward. -/
def lstm_premul_creator (script : Bool) (cfg : LstmConfig) (s0 : RNG) :
    ModelDef (Tensor × (Tensor × Tensor)) :=
  let r := lstm_inputs cfg s0
  let input := r.1.x
  let hidden := (r.1.hx, r.1.cx)
  let params := r.1.all_weights
  let p0 := params.getD 0 []
  let rnn := lstm_factory_premul premul_lstm_cell script
  { inputs := [.t input, .pair hidden] ++ p0.map .t,
    params := flatten_list params,
    forward := fun args =>
      match args with
      | [.t i, .pair h, .t a, .t b, .t c, .t d] => some (rnn i h a b c d)
      | _ => none,
    backward_setup := lstm_backward_setup,
    backward := simple_backward }

/-- `lstm_simple_creator(script, **kwargs)`: flat calling convention —
`[input] + [h[0] for h in hidden] + params[0]`, seven positional
arguments. -/
def lstm_simple_creator (script : Bool) (cfg : LstmConfig) (s0 : RNG) :
    ModelDef (Tensor × Tensor) :=
  let r := lstm_inputs cfg s0
  let input := r.1.x
  let hidden := (r.1.hx, r.1.cx)
  let params := r.1.all_weights
  let p0 := params.getD 0 []
  let rnn := lstm_factory_simple flat_lstm_cell script
  { inputs := [.t input, .t (indexT hidden.1 0), .t (indexT hidden.2 0)]
      ++ p0.map .t,
    params := flatten_list params,
    forward := fun args =>
      match args with
      | [.t i, .t h, .t c, .t a, .t b, .t bi, .t bh] =>
        some (rnn i h c a b bi bh)
      | _ => none,
    backward_setup := lstm_backward_setup,
    backward := simple_backward }

/-- `lstm_multilayer_creator(script, **kwargs)`: three positional
arguments — the input, the `(hx, cx)` pair, and the flat parameter
list. -/
def lstm_multilayer_creator (script : Bool) (cfg : LstmConfig) (s0 : RNG) :
    ModelDef (Tensor × (Tensor × Tensor)) :=
  let r := lstm_inputs cfg s0
  let input := r.1.x
  let hidden := (r.1.hx, r.1.cx)
  let params := r.1.all_weights
  let rnn := lstm_factory_multilayer lstm_cell script
  { inputs := [.t input, .pair hidden, .list (flatten_list params)],
    params := flatten_list params,
    forward := fun args =>
      match args with
      | [.t i, .pair h, .list ps] => some (rnn i h ps)
      | _ => none,
    backward_setup := lstm_backward_setup,
    backward := simple_backward }

/-! ## `stack_weights` -/

/-- The inner `unzip_columns` of `stack_weights`: transpose the
layers-by-columns nested list, reading the column count off the first
row. -/
def unzip_columns (mat : List (List Tensor)) : List (List Tensor) :=
  let layers := mat.length
  let columns := (mat.headD []).length
  (List.range columns).map fun col =>
    (List.range layers).map fun layer => (mat.getD layer []).getD col default

/-- `stack_weights(weights)`: stack each unzipped column so the layer
index becomes the leading dimension. -/
def stack_weights (weights : List (List Tensor)) : List Tensor :=
  let all_weights := weights
  (unzip_columns all_weights).map fun param => stackT param

/-! ## Concrete configurations and specification-side definitions -/

/-- The concrete configuration of the C1 scenario
(`batchSize` is the `miniBatch` keyword of `lstm_inputs`). -/
def cfg42 : LstmConfig :=
  { seqLength := 5, numLayers := 1, inputSize := 8, hiddenSize := 8,
    miniBatch := 2, seed := some 42 }

/-- The bundle produced by `lstm_creator` for the C1 scenario. -/
def md42 : ModelDef (Tensor × (Tensor × Tensor)) := lstm_creator true cfg42 0

/-- The C4 negative-scenario configuration: batch size 0. -/
def cfgBatch0 : LstmConfig :=
  { seqLength := 5, numLayers := 1, inputSize := 8, hiddenSize := 8,
    miniBatch := 0, seed := some 42 }

/-- The layer indices `i, i+1, ..., i+n-1` in order. -/
def rangeFrom (i : Nat) : Nat → List Nat
  | 0 => []
  | n + 1 => i :: rangeFrom (i + 1) n

/-- Specification-side reading of the multilayer parameter layout: the
four parameters of layer `l` are read from the flat sequence in a group
of exactly 4 at base index `l * 4`, in the order wih, whh, bih, bhh. -/
def layerParams (params : List Tensor) (l : Nat) :
    Tensor × Tensor × Tensor × Tensor :=
  (params.getD (l * 4) default, params.getD (l * 4 + 1) default,
   params.getD (l * 4 + 2) default, params.getD (l * 4 + 3) default)

/-- Specification-side processing of one layer `l`: start from
`hx[l], cx[l]`, take layer `l`'s parameter group, and run the time-step
loop over the current inputs. -/
def runLayer (cell : CellFn) (hx cx : Tensor) (params : List Tensor)
    (l : Nat) (ins : List Tensor) : List Tensor × Tensor × Tensor :=
  let p := layerParams params l
  lstmLoop cell ins (indexT hx l) (indexT cx l) p.1 p.2.1 p.2.2.1 p.2.2.2

/-- Specification-side processing of a list of layers in order, each
layer's outputs becoming the next layer's inputs. -/
def runLayers (cell : CellFn) (hx cx : Tensor) (params : List Tensor) :
    List Nat → List Tensor → Tensor → Tensor →
    List Tensor × Tensor × Tensor
  | [], ins, hy, cy => (ins, hy, cy)
  | l :: rest, ins, _, _ =>
    let r := runLayer cell hx cx params l ins
    runLayers cell hx cx params rest r.1 r.2.1 r.2.2

/-- Modelled from the spec: `backward` (external autodiff) populates the
`.grad` accumulator of exactly the leaf tensors reachable from the forward
output; each forward here reaches exactly the tensors among its positional
arguments, so a parameter's gradient is populated iff the parameter occurs
among the forward's argument tensors. -/
def backwardPopulatesGrad (inputs : List Arg) (p : Tensor) : Prop :=
  p ∈ argTensors inputs

/-- First slice of the leading dimension (plain head, for observation). -/
def headT : Tensor → Tensor
  | .scalar v => .scalar v
  | .dim ts => ts.headD (.scalar 0)

/-- An executable observation separating the synthesized tensors: the
first scalar leaf down three levels. -/
def obsT (t : Tensor) : Int := scalarVal (headT (headT (headT t)))

/-- A two-layer configuration for the C5 counterexample. -/
def cfgL2 : LstmConfig :=
  { seqLength := 1, numLayers := 2, inputSize := 1, hiddenSize := 1,
    miniBatch := 1, seed := some 0 }

/-- The bundle `lstm_creator` returns for the two-layer configuration. -/
def mdL2 : ModelDef (Tensor × (Tensor × Tensor)) := lstm_creator true cfgL2 0

set_option maxRecDepth 100000

/-! ## Helper lemmas -/

theorem buildRow_len (gen : RNG → Tensor × RNG) :
    ∀ (n : Nat) (s : RNG), (buildRow gen n s).1.length = n := by
  intro n
  induction n with
  | zero => intro s; rfl
  | succ k ih => intro s; simp [buildRow, ih]

/-- A fresh draw at the shape of an existing tensor reproduces that
shape. -/
theorem randnT_shape : (t : Tensor) → (s : RNG) →
    ((randnT t.shape s).1).shape = t.shape
  | .scalar _, _ => rfl
  | .dim [], _ => rfl
  | .dim (t :: rest), s => by
    simp only [Tensor.shape, randnT, buildRow]
    simp [Tensor.shape, buildRow_len, randnT_shape t s]

theorem foldl_append_init {α : Type} (l : List (List α)) :
    ∀ (a : List α), l.foldl (fun r i => r ++ i) a
      = a ++ l.foldl (fun r i => r ++ i) [] := by
  induction l with
  | nil => intro a; simp
  | cons b t ih =>
    intro a
    simp only [List.foldl_cons, List.nil_append]
    rw [ih (a ++ b), ih b, List.append_assoc]

theorem flatten_list_cons {α : Type} (a : List α) (l : List (List α)) :
    flatten_list (a :: l) = a ++ flatten_list l := by
  unfold flatten_list
  simp only [List.foldl_cons, List.nil_append]
  exact foldl_append_init l a

theorem flatten_list_nil {α : Type} : flatten_list ([] : List (List α)) = [] := rfl

/-! ## C1 -/

/-- C1: for seqLength=5, numLayers=1, inputSize=8, hiddenSize=8,
batchSize=2, seed=42, `lstm_creator` produces inputs whose first element
has shape (5,2,8), a forward whose hidden-state output component has
shape (1,2,8), and a params sequence of length exactly 4 whose entries
have the shapes of wih, whh, bih, bhh in that order. -/
theorem C1_concrete_factory_scenario :
    ((argTensors md42.inputs).headD default).shape = [5, 2, 8] ∧
    (md42.forward md42.inputs).map (fun o => o.2.1.shape) = some [1, 2, 8] ∧
    md42.params.length = 4 ∧
    md42.params.map Tensor.shape = [[32, 8], [32, 8], [32], [32]] := by
  refine ⟨by decide, by decide, by decide, by decide⟩

/-! ## C3 -/

/-- C3: with a fixed seed, `lstm_inputs` is independent of the incoming
global RNG state, so two factory invocations with identical configuration
produce identical inputs and identical parameters; stated for all four
creators. -/
theorem C3_seeded_synthesis_deterministic
    (cfg : LstmConfig) (n : Nat) (hseed : cfg.seed = some n)
    (script : Bool) (s1 s2 : RNG) :
    (lstm_creator script cfg s1).inputs = (lstm_creator script cfg s2).inputs ∧
    (lstm_creator script cfg s1).params = (lstm_creator script cfg s2).params ∧
    (lstm_premul_creator script cfg s1).inputs
      = (lstm_premul_creator script cfg s2).inputs ∧
    (lstm_premul_creator script cfg s1).params
      = (lstm_premul_creator script cfg s2).params ∧
    (lstm_simple_creator script cfg s1).inputs
      = (lstm_simple_creator script cfg s2).inputs ∧
    (lstm_simple_creator script cfg s1).params
      = (lstm_simple_creator script cfg s2).params ∧
    (lstm_multilayer_creator script cfg s1).inputs
      = (lstm_multilayer_creator script cfg s2).inputs ∧
    (lstm_multilayer_creator script cfg s1).params
      = (lstm_multilayer_creator script cfg s2).params := by
  have key : lstm_inputs cfg s1 = lstm_inputs cfg s2 := by
    simp only [lstm_inputs, hseed, manual_seed]
  refine ⟨?_, ?_, ?_, ?_, ?_, ?_, ?_, ?_⟩ <;>
    simp only [lstm_creator, lstm_premul_creator, lstm_simple_creator,
      lstm_multilayer_creator, key]

/-- Witness for C3 at the C1 configuration and two different incoming RNG
states. -/
theorem C3_seeded_synthesis_deterministic_witness :
    (lstm_creator true cfg42 0).inputs = (lstm_creator true cfg42 123).inputs :=
  (C3_seeded_synthesis_deterministic cfg42 42 rfl true 0 123).1

/-! ## C4 -/

/-- C4 counterexample: with batchSize=0 the factory does not raise — the
exception-aware view of `lstm_inputs` returns `ok`, and tensor synthesis
has proceeded, producing an input whose leading (time) dimension has
extent 5 with empty batch slices. -/
theorem C4_counterexample_no_raise_at_batch0 :
    (lstm_inputs_checked cfgBatch0 0).isOk = true ∧
    size0 (lstm_inputs cfgBatch0 0).1.x = 5 ∧
    indexT (lstm_inputs cfgBatch0 0).1.x 0 = Tensor.dim [] := by
  refine ⟨rfl, rfl, rfl⟩

/-- C4 (amended): `lstm_inputs` performs no configuration validation at
all — for every configuration, batch size 0 included, it returns normally
and never signals `InvalidConfiguration`. -/
theorem C4_no_configuration_validation (cfg : LstmConfig) (s : RNG) :
    (lstm_inputs_checked cfg s).isOk = true := rfl

/-! ## C7 -/

/-- C7: `lstm_backward_setup` returns a pair whose value is exactly the
hidden-state (first) component of the forward output, is entirely
independent of the second (cell-state) component, and whose gradient seed
has the shape of the hidden component. -/
theorem C7_backward_setup_extracts_hidden {β : Type} (hx : Tensor)
    (rest rest2 : β) (seed : Option Nat) (s : RNG) :
    (lstm_backward_setup (hx, rest) seed s).1.1 = hx ∧
    lstm_backward_setup (hx, rest) seed s
      = lstm_backward_setup (hx, rest2) seed s ∧
    ((lstm_backward_setup (hx, rest) seed s).1.2).shape = hx.shape := by
  refine ⟨rfl, rfl, ?_⟩
  unfold lstm_backward_setup simple_backward_setup randn_like
  exact randnT_shape hx _

/-! ## C9 -/

/-- C9: for a non-empty rectangular per-layer weight table with `L` layers
and `C` columns, `stack_weights` returns `C` tensors whose leading
dimension is the layer index: entry `l` of output tensor `c` is input
entry `weights[l][c]`, and each output has leading extent `L`. -/
theorem C9_stack_weights_unzips (w : List (List Tensor)) (L C : Nat)
    (hL : w.length = L) (hpos : 0 < L)
    (hC : ∀ row ∈ w, row.length = C) :
    (stack_weights w).length = C ∧
    (∀ c, c < C → size0 ((stack_weights w).getD c default) = L) ∧
    ∀ l c, l < L → c < C →
      indexT ((stack_weights w).getD c default) l
        = (w.getD l []).getD c default := by
  have hhead : (w.headD []).length = C := by
    cases w with
    | nil =>
      simp only [List.length_nil] at hL
      omega
    | cons r t => exact hC r (by simp)
  have hlen : (stack_weights w).length = C := by
    simp only [stack_weights, unzip_columns, List.length_map,
      List.length_range]
    exact hhead
  have hsw : ∀ c, c < C →
      (stack_weights w).getD c default
        = stackT ((List.range w.length).map fun layer =>
            (w.getD layer []).getD c default) := by
    intro c hc
    simp only [stack_weights, unzip_columns]
    rw [hhead, List.getD_eq_getElem?_getD, List.getElem?_map,
      List.getElem?_map, List.getElem?_range hc]
    rfl
  refine ⟨hlen, ?_, ?_⟩
  · intro c hc
    rw [hsw c hc]
    simp [stackT, size0, hL]
  · intro l c hl hc
    rw [hsw c hc]
    simp only [stackT, indexT]
    rw [List.getD_eq_getElem?_getD, List.getElem?_map,
      List.getElem?_range (by rw [hL]; exact hl)]
    rfl

/-- Witness for C9 on a concrete 2-layer, 3-column table. -/
theorem C9_stack_weights_unzips_witness :
    (stack_weights [[Tensor.scalar 1, Tensor.scalar 2, Tensor.scalar 3],
      [Tensor.scalar 4, Tensor.scalar 5, Tensor.scalar 6]]).length = 3 :=
  (C9_stack_weights_unzips
    [[Tensor.scalar 1, Tensor.scalar 2, Tensor.scalar 3],
      [Tensor.scalar 4, Tensor.scalar 5, Tensor.scalar 6]] 2 3 rfl
    (by decide) (by simp)).1

/-! ## C10 -/

/-- C10: seed handling is asymmetric at seed 0.  `lstm_inputs` seeds
whenever the seed is not `None`, so its outputs for seed 0 are independent
of the incoming RNG state; `simple_backward_setup` tests truthiness, skips
seeding for seed 0, and there are two RNG states under which it produces
different gradient seeds for the same output. -/
theorem C10_seed_zero_asymmetry (cfg : LstmConfig)
    (hseed : cfg.seed = some 0) :
    (∀ s1 s2 : RNG, (lstm_inputs cfg s1).1 = (lstm_inputs cfg s2).1) ∧
    ∃ (out : Tensor) (s1 s2 : RNG),
      (simple_backward_setup out (some 0) s1).1.2
        ≠ (simple_backward_setup out (some 0) s2).1.2 := by
  constructor
  · intro s1 s2
    have key : lstm_inputs cfg s1 = lstm_inputs cfg s2 := by
      simp only [lstm_inputs, hseed, manual_seed]
    rw [key]
  · refine ⟨Tensor.dim [Tensor.scalar 0], 0, 1, ?_⟩
    intro h
    simp [simple_backward_setup, seedTruthy, randn_like, Tensor.shape,
      randnT, buildRow, drawScalar] at h

/-- Witness for C10 at the batch-0-free concrete configuration with seed
0. -/
theorem C10_seed_zero_asymmetry_witness :
    ∃ (out : Tensor) (s1 s2 : RNG),
      (simple_backward_setup out (some 0) s1).1.2
        ≠ (simple_backward_setup out (some 0) s2).1.2 :=
  (C10_seed_zero_asymmetry
    { seqLength := 1, numLayers := 1, inputSize := 1, hiddenSize := 1,
      miniBatch := 1, seed := some 0 } rfl).2

/-! ## C2 -/

theorem layersLoop_eq_runLayers (cell : CellFn) (hx cx : Tensor)
    (params : List Tensor) :
    ∀ (fuel idx : Nat) (ins : List Tensor) (hy cy : Tensor),
      layersLoop cell hx cx params ins hy cy idx fuel
        = runLayers cell hx cx params (rangeFrom idx fuel) ins hy cy := by
  intro fuel
  induction fuel with
  | zero => intro idx ins hy cy; rfl
  | succ k ih =>
    intro idx ins hy cy
    simp only [layersLoop, rangeFrom, runLayers, runLayer, layerParams]
    exact ih (idx + 1) _ _ _

theorem runLayers_append (cell : CellFn) (hx cx : Tensor)
    (params : List Tensor) :
    ∀ (a b : List Nat) (ins : List Tensor) (hy cy : Tensor),
      runLayers cell hx cx params (a ++ b) ins hy cy
        = runLayers cell hx cx params b
            (runLayers cell hx cx params a ins hy cy).1
            (runLayers cell hx cx params a ins hy cy).2.1
            (runLayers cell hx cx params a ins hy cy).2.2 := by
  intro a
  induction a with
  | nil => intro b ins hy cy; rfl
  | cons l rest ih =>
    intro b ins hy cy
    simp only [List.cons_append, runLayers]
    exact ih b _ _ _

theorem rangeFrom_snoc : ∀ (n i : Nat),
    rangeFrom i (n + 1) = rangeFrom i n ++ [i + n] := by
  intro n
  induction n with
  | zero => intro i; rfl
  | succ k ih =>
    intro i
    have harith : i + 1 + k = i + (k + 1) := by omega
    calc rangeFrom i (k + 1 + 1)
        = i :: rangeFrom (i + 1) (k + 1) := rfl
      _ = i :: (rangeFrom (i + 1) k ++ [i + 1 + k]) := by rw [ih (i + 1)]
      _ = (i :: rangeFrom (i + 1) k) ++ [i + (k + 1)] := by rw [harith]; rfl
      _ = rangeFrom i (k + 1) ++ [i + (k + 1)] := rfl

/-- C2: for every layer count `L ≥ 1`, `lstm_factory_multilayer` equals
the specification-side recursion that reads the flat parameter sequence
in groups of exactly 4 per layer at base index `layer * 4` (wih, whh,
bih, bhh) and processes the layers in order `0..L-1`; moreover the
returned hidden/cell pair is the final state of the last layer
processed. -/
theorem C2_multilayer_stride4_last_layer (cell : CellFn) (script : Bool)
    (input : Tensor) (hs cs : List Tensor) (params : List Tensor)
    (L : Nat) (hL : 1 ≤ L) (hhs : hs.length = L) :
    (lstm_factory_multilayer cell script input (.dim hs, .dim cs) params
      = (stackT (runLayers cell (.dim hs) (.dim cs) params
            (rangeFrom 0 L) (unbind input) (.dim hs) (.dim cs)).1,
         (unsqueeze (runLayers cell (.dim hs) (.dim cs) params
            (rangeFrom 0 L) (unbind input) (.dim hs) (.dim cs)).2.1,
          unsqueeze (runLayers cell (.dim hs) (.dim cs) params
            (rangeFrom 0 L) (unbind input) (.dim hs) (.dim cs)).2.2))) ∧
    (runLayers cell (.dim hs) (.dim cs) params (rangeFrom 0 L)
        (unbind input) (.dim hs) (.dim cs)).2
      = (runLayer cell (.dim hs) (.dim cs) params (L - 1)
          (runLayers cell (.dim hs) (.dim cs) params (rangeFrom 0 (L - 1))
            (unbind input) (.dim hs) (.dim cs)).1).2 := by
  constructor
  · have hsize : size0 (Tensor.dim hs) = L := by
      simp [size0, hhs]
    cases script <;>
      simp only [lstm_factory_multilayer, jitScript, hsize,
        layersLoop_eq_runLayers, if_true, if_false, Bool.false_eq_true,
        ite_self]
  · obtain ⟨k, rfl⟩ : ∃ k, L = k + 1 := ⟨L - 1, by omega⟩
    have hr : rangeFrom 0 (k + 1) = rangeFrom 0 k ++ [k] := by
      have := rangeFrom_snoc k 0
      simpa using this
    rw [hr, runLayers_append]
    simp only [runLayers, Nat.add_sub_cancel]

/-! ## C6 -/

theorem unbind_stackT (l : List Tensor) : unbind (stackT l) = l := rfl

theorem premulLoop_eq_lstmLoop (cell : CellFn) (pcell : PremulCellFn)
    (wih whh bih bhh : Tensor)
    (hp : ∀ (x : Tensor) (hc : Tensor × Tensor),
      pcell (matmul2 x (transposeT wih)) hc whh bih bhh
        = cell x hc wih whh bih bhh) :
    ∀ (ins : List Tensor) (hy cy : Tensor),
      premulLoop pcell (ins.map fun x => matmul2 x (transposeT wih))
          hy cy whh bih bhh
        = lstmLoop cell ins hy cy wih whh bih bhh := by
  intro ins
  induction ins with
  | nil => intro hy cy; rfl
  | cons x rest ih =>
    intro hy cy
    simp only [List.map_cons, premulLoop, lstmLoop, hp x (hy, cy), ih]

theorem simpleLoop_eq_lstmLoop (cell : CellFn) (fcell : FlatCellFn)
    (wih whh bih bhh : Tensor)
    (hf : ∀ (x h c : Tensor),
      fcell x h c wih whh bih bhh = cell x (h, c) wih whh bih bhh) :
    ∀ (ins : List Tensor) (hy cy : Tensor),
      simpleLoop fcell ins hy cy wih whh bih bhh
        = ((lstmLoop cell ins hy cy wih whh bih bhh).2.1,
           (lstmLoop cell ins hy cy wih whh bih bhh).2.2) := by
  intro ins
  induction ins with
  | nil => intro hy cy; rfl
  | cons x rest ih =>
    intro hy cy
    simp only [simpleLoop, lstmLoop, hf x hy cy, ih]

/-- C6: given identical parameter values and identical inputs, the
forward variants agree.  With the same step cell, the standard and
one-layer multilayer forwards return equal stacked outputs and equal
final states; with a premultiplied cell related to the step cell by
input premultiplication, the premultiplied forward equals the standard
one; with a flat cell equal to the step cell on unpacked state, the flat
forward returns exactly the standard forward's final (hidden, cell)
state (before unsqueezing). -/
theorem C6_forward_variants_equivalent (cell : CellFn)
    (pcell : PremulCellFn) (fcell : FlatCellFn) (script : Bool)
    (input hx cx wih whh bih bhh : Tensor)
    (hp : ∀ (x : Tensor) (hc : Tensor × Tensor),
      pcell (matmul2 x (transposeT wih)) hc whh bih bhh
        = cell x hc wih whh bih bhh)
    (hf : ∀ (x h c : Tensor),
      fcell x h c wih whh bih bhh = cell x (h, c) wih whh bih bhh) :
    (∀ h c, lstm_factory cell script input (.dim [h], .dim [c])
        wih whh bih bhh
      = lstm_factory_multilayer cell script input (.dim [h], .dim [c])
          [wih, whh, bih, bhh]) ∧
    (lstm_factory_premul pcell script input (hx, cx) wih whh bih bhh
      = lstm_factory cell script input (hx, cx) wih whh bih bhh) ∧
    ((lstm_factory cell script input (hx, cx) wih whh bih bhh).2
      = (unsqueeze (lstm_factory_simple fcell script input
            (indexT hx 0) (indexT cx 0) wih whh bih bhh).1,
         unsqueeze (lstm_factory_simple fcell script input
            (indexT hx 0) (indexT cx 0) wih whh bih bhh).2)) := by
  refine ⟨?_, ?_, ?_⟩
  · intro h c
    cases script <;> rfl
  · cases script <;>
      · simp only [lstm_factory_premul, lstm_factory, jitScript, ite_self]
        rw [show unbind (matmul3 input (transposeT wih))
            = (unbind input).map (fun x => matmul2 x (transposeT wih))
          from rfl]
        rw [premulLoop_eq_lstmLoop cell pcell wih whh bih bhh hp]
  · cases script <;>
      · simp only [lstm_factory_simple, lstm_factory, jitScript, ite_self]
        rw [simpleLoop_eq_lstmLoop cell fcell wih whh bih bhh hf]

/-- Witness for C6 with the modelled cells (which satisfy both
premultiplication and flattening relations definitionally) on concrete
tensors. -/
theorem C6_forward_variants_equivalent_witness :
    lstm_factory_premul premul_lstm_cell true (Tensor.dim [.scalar 2])
        (Tensor.dim [.scalar 3], Tensor.dim [.scalar 4])
        (.scalar 5) (.scalar 6) (.scalar 7) (.scalar 8)
      = lstm_factory lstm_cell true (Tensor.dim [.scalar 2])
        (Tensor.dim [.scalar 3], Tensor.dim [.scalar 4])
        (.scalar 5) (.scalar 6) (.scalar 7) (.scalar 8) :=
  (C6_forward_variants_equivalent lstm_cell premul_lstm_cell
    flat_lstm_cell true (Tensor.dim [.scalar 2]) (Tensor.dim [.scalar 3])
    (Tensor.dim [.scalar 4]) (.scalar 5) (.scalar 6) (.scalar 7)
    (.scalar 8) (fun _ _ => rfl) (fun _ _ _ => rfl)).2.1

/-! ## C2 witness -/

/-- Witness for C2 at three layers on concrete tensors. -/
theorem C2_multilayer_stride4_last_layer_witness :
    (runLayers lstm_cell (.dim [.scalar 1, .scalar 2, .scalar 3])
        (.dim [.scalar 4, .scalar 5, .scalar 6]) [] (rangeFrom 0 3)
        (unbind (.dim [.scalar 7])) (.dim [.scalar 1, .scalar 2, .scalar 3])
        (.dim [.scalar 4, .scalar 5, .scalar 6])).2
      = (runLayer lstm_cell (.dim [.scalar 1, .scalar 2, .scalar 3])
          (.dim [.scalar 4, .scalar 5, .scalar 6]) [] (3 - 1)
          (runLayers lstm_cell (.dim [.scalar 1, .scalar 2, .scalar 3])
            (.dim [.scalar 4, .scalar 5, .scalar 6]) [] (rangeFrom 0 (3 - 1))
            (unbind (.dim [.scalar 7]))
            (.dim [.scalar 1, .scalar 2, .scalar 3])
            (.dim [.scalar 4, .scalar 5, .scalar 6])).1).2 :=
  (C2_multilayer_stride4_last_layer lstm_cell true (.dim [.scalar 7])
    [.scalar 1, .scalar 2, .scalar 3] [.scalar 4, .scalar 5, .scalar 6]
    [] 3 (by decide) (by decide)).2

/-! ## C5 -/

/-- With a single requested layer, the synthesized `all_weights` is one
four-tensor group. -/
theorem all_weights_one_layer (cfg : LstmConfig) (s : RNG)
    (h1 : cfg.numLayers = 1) :
    ∃ a b c d, (lstm_inputs cfg s).1.all_weights = [[a, b, c, d]] := by
  simp only [lstm_inputs, h1, lstmAllWeights, layerWeights]
  exact ⟨_, _, _, _, rfl⟩

/-- C5 counterexample: for `lstm_creator` with numLayers=2, not every
parameter's gradient is populated — `params` lists both layers' eight
tensors but the forward consumes only layer 0's four, so the layer-1
input-to-hidden weight (params[4]) is unreachable from the forward
computation. -/
theorem C5_counterexample_second_layer_unreachable :
    ¬ ∀ p ∈ mdL2.params, backwardPopulatesGrad mdL2.inputs p := by
  intro hall
  have hlen : 4 < mdL2.params.length := by decide
  have hp : mdL2.params.getD 4 default ∈ mdL2.params := by
    rw [List.getD_eq_getElem mdL2.params default hlen]
    exact List.getElem_mem hlen
  have hreach := hall _ hp
  have hobs : obsT (mdL2.params.getD 4 default)
      ∈ (argTensors mdL2.inputs).map obsT :=
    List.mem_map_of_mem obsT hreach
  exact absurd hobs (by decide)

/-- C5 (amended): every parameter's gradient accumulator is populated by
the backward pass for the multilayer creator at every layer count, and
for the standard, premultiplied and flat creators when numLayers = 1 (the
only case in which their forward consumes all listed parameters); with
numLayers > 1 those creators expose all layers' parameters but forward
only layer 0's group. -/
theorem C5_params_gradient_coverage :
    (∀ (script : Bool) (cfg : LstmConfig) (s : RNG), cfg.numLayers = 1 →
      ∀ p ∈ (lstm_creator script cfg s).params,
        backwardPopulatesGrad (lstm_creator script cfg s).inputs p) ∧
    (∀ (script : Bool) (cfg : LstmConfig) (s : RNG), cfg.numLayers = 1 →
      ∀ p ∈ (lstm_premul_creator script cfg s).params,
        backwardPopulatesGrad (lstm_premul_creator script cfg s).inputs p) ∧
    (∀ (script : Bool) (cfg : LstmConfig) (s : RNG), cfg.numLayers = 1 →
      ∀ p ∈ (lstm_simple_creator script cfg s).params,
        backwardPopulatesGrad (lstm_simple_creator script cfg s).inputs p) ∧
    (∀ (script : Bool) (cfg : LstmConfig) (s : RNG),
      ∀ p ∈ (lstm_multilayer_creator script cfg s).params,
        backwardPopulatesGrad (lstm_multilayer_creator script cfg s).inputs p) := by
  refine ⟨?_, ?_, ?_, ?_⟩
  · intro script cfg s h1 p hp
    obtain ⟨a, b, c, d, haw⟩ := all_weights_one_layer cfg s h1
    simp only [lstm_creator, backwardPopulatesGrad, haw, flatten_list_cons,
      flatten_list_nil, List.append_nil, List.getD_cons_zero,
      List.map_cons, List.map_nil, List.cons_append, List.nil_append,
      argTensors] at hp ⊢
    simp only [List.mem_cons, List.not_mem_nil, or_false] at hp ⊢
    tauto
  · intro script cfg s h1 p hp
    obtain ⟨a, b, c, d, haw⟩ := all_weights_one_layer cfg s h1
    simp only [lstm_premul_creator, backwardPopulatesGrad, haw,
      flatten_list_cons, flatten_list_nil, List.append_nil,
      List.getD_cons_zero, List.map_cons, List.map_nil, List.cons_append,
      List.nil_append, argTensors] at hp ⊢
    simp only [List.mem_cons, List.not_mem_nil, or_false] at hp ⊢
    tauto
  · intro script cfg s h1 p hp
    obtain ⟨a, b, c, d, haw⟩ := all_weights_one_layer cfg s h1
    simp only [lstm_simple_creator, backwardPopulatesGrad, haw,
      flatten_list_cons, flatten_list_nil, List.append_nil,
      List.getD_cons_zero, List.map_cons, List.map_nil, List.cons_append,
      List.nil_append, argTensors] at hp ⊢
    simp only [List.mem_cons, List.not_mem_nil, or_false] at hp ⊢
    tauto
  · intro script cfg s p hp
    simp only [lstm_multilayer_creator, backwardPopulatesGrad, argTensors,
      List.append_nil]
    simp only [List.mem_cons]
    tauto

/-- Witness for C5 at the single-layer C1 configuration. -/
theorem C5_params_gradient_coverage_witness :
    backwardPopulatesGrad md42.inputs (md42.params.getD 0 default) :=
  C5_params_gradient_coverage.1 true cfg42 0 rfl _
    (by
      have hlen : 0 < md42.params.length := by decide
      rw [List.getD_eq_getElem md42.params default hlen]
      exact List.getElem_mem hlen)

/-! ## C8 -/

/-- C8: for each creator, applying the returned forward to the returned
inputs succeeds — the forward's positional signature matches the arity
and argument structure of `inputs` as produced by the same factory
invocation (the standard, premultiplied and flat creators index
`params[0]`, so at least one layer is required, as the specification's
validity condition demands). -/
theorem C8_forward_arity_matches_inputs (script : Bool)
    (cfg : LstmConfig) (s : RNG) (hL : 1 ≤ cfg.numLayers) :
    (((lstm_creator script cfg s).forward
        (lstm_creator script cfg s).inputs).isSome = true) ∧
    (((lstm_premul_creator script cfg s).forward
        (lstm_premul_creator script cfg s).inputs).isSome = true) ∧
    (((lstm_simple_creator script cfg s).forward
        (lstm_simple_creator script cfg s).inputs).isSome = true) ∧
    (((lstm_multilayer_creator script cfg s).forward
        (lstm_multilayer_creator script cfg s).inputs).isSome = true) := by
  rcases cfg with ⟨seqLength, numLayers, inputSize, hiddenSize, miniBatch, seed⟩
  dsimp only at hL
  obtain ⟨k, rfl⟩ : ∃ k, numLayers = k + 1 :=
    ⟨numLayers - 1, by omega⟩
  refine ⟨rfl, rfl, rfl, rfl⟩

/-- Witness for C8 at the C1 configuration. -/
theorem C8_forward_arity_matches_inputs_witness :
    ((lstm_creator true cfg42 0).forward
      (lstm_creator true cfg42 0).inputs).isSome = true :=
  (C8_forward_arity_matches_inputs true cfg42 0 (by decide)).1
